import Mathlib

/-!
# Verification of the Linguist-AI practice-session state machine

A shallow embedding of the practice-session component (`PracticeSession`) and
the critique service (`evaluatePronunciation` in `geminiService.ts`) of the
Linguist-AI repository, together with proofs of its navigation, capture and
evaluation properties.

The component's `useState` hooks and `useRef` cells are collected into one
record, `PracticeState`; each event handler of the source becomes a pure
function on that record.  Asynchronous service calls are modelled by passing
the outcome of the external call as an explicit argument.
-/

namespace LinguistAI

/-! ## JavaScript string trimming

`String.prototype.trim` removes whitespace from both ends of a string.  The
only whitespace the component ever introduces itself is the space character;
we model the usual ASCII whitespace set. -/

def isJsWhitespace (c : Char) : Bool :=
  c = ' ' || c = '\t' || c = '\n' || c = '\r'

def trimChars (l : List Char) : List Char :=
  ((l.dropWhile isJsWhitespace).reverse.dropWhile isJsWhitespace).reverse

/-- Embedding of JavaScript `s.trim()`. -/
def jsTrim (s : String) : String :=
  ⟨trimChars s.data⟩

/-! ## Data model (`types.ts`) -/

/-- `PronunciationError` of `types.ts`.  The source field `example` is a Lean
keyword and is rendered here as `contrastExample`. -/
structure PronunciationError where
  word : String
  expectedPhoneme : String
  actualPhonemeLike : String
  tip : String
  contrastExample : String
deriving DecidableEq

/-- `EvaluationResult` of `types.ts`, restricted to the fields that
`evaluatePronunciation` actually populates. -/
structure EvaluationResult where
  score : Nat
  transcript : String
  feedback : String
  errors : List PronunciationError
deriving DecidableEq

/-! ## The critique service (`geminiService.ts`, `evaluatePronunciation`) -/

/-- The possible outcomes of the awaited `ai.models.generateContent` call as
seen from inside `evaluatePronunciation`: the network call may throw, the
response text may be absent, `JSON.parse` may throw, or the response parses
into optional `feedback` and `errors` fields. -/
inductive CritiqueOutcome where
  | netError
  | noText
  | parseError
  | parsed (feedback : Option String) (errors : Option (List PronunciationError))

/-- JavaScript `a || b` for an optional string `a`: the empty string is falsy. -/
def jsOrElse (s : Option String) (d : String) : String :=
  match s with
  | none => d
  | some t => if t = "" then d else t

/-- `evaluatePronunciation(targetSentence, userTranscript)` of
`geminiService.ts` (lines 297-354).  It throws only when the API key is
missing; every network or parse failure is caught inside the function and
converted into a degraded `EvaluationResult`. -/
def evaluatePronunciation (apiKey : String) (targetSentence userTranscript : String)
    (outcome : CritiqueOutcome) : Except String EvaluationResult :=
  if apiKey = "" then .error "API Key is missing"
  else
    match outcome with
    | .parsed feedback errors =>
        .ok { score := 0, transcript := userTranscript,
              feedback := jsOrElse feedback "Good job!",
              errors := errors.getD [] }
    | .noText =>
        .ok { score := 0, transcript := userTranscript,
              feedback := "无法分析，请重试", errors := [] }
    | .netError =>
        .ok { score := 0, transcript := userTranscript,
              feedback := "网络错误", errors := [] }
    | .parseError =>
        .ok { score := 0, transcript := userTranscript,
              feedback := "网络错误", errors := [] }

/-- The degraded result `evaluatePronunciation` returns from its catch block. -/
def degradedResult (userTranscript : String) : EvaluationResult :=
  { score := 0, transcript := userTranscript, feedback := "网络错误", errors := [] }

/-! ## The practice-session state (`PracticeSession` component)

The `useState` hooks and the mutable refs of the component, flattened into a
single record.  `history` is the sparse map from level index to saved
`EvaluationResult`; `userStopped`, `transcript` and `fullTranscript` are the
`userStoppedRef`, `transcriptRef` and `fullTranscriptRef` ref cells. -/
structure PracticeState where
  currentIndex : Nat
  unlockedIndex : Nat
  history : Nat → Option EvaluationResult
  evaluation : Option EvaluationResult
  showAnalysis : Bool
  isEvaluating : Bool
  isPlaying : Bool
  isRecording : Bool
  isAudioLoading : Bool
  userStopped : Bool
  transcript : String
  fullTranscript : String

/-- The component's initial state (`useState` initialisers, lines 199-233). -/
def initialState : PracticeState :=
  { currentIndex := 0
    unlockedIndex := 0
    history := fun _ => none
    evaluation := none
    showAnalysis := false
    isEvaluating := false
    isPlaying := false
    isRecording := false
    isAudioLoading := false
    userStopped := false
    transcript := ""
    fullTranscript := "" }

/-! ## Event handlers -/

/-- `handleNext` (lines 608-620).  The second component is `true` when the
handler signals session completion by calling `onComplete`. -/
def handleNext (count : Nat) (s : PracticeState) : PracticeState × Bool :=
  let nextIdx := s.currentIndex + 1
  if nextIdx < count then
    ({ s with
        unlockedIndex := if nextIdx > s.unlockedIndex then nextIdx else s.unlockedIndex
        currentIndex := nextIdx }, false)
  else
    (s, true)

/-- `handleJumpToLevel` (lines 622-627). -/
def handleJumpToLevel (index : Nat) (s : PracticeState) : PracticeState :=
  if index ≤ s.unlockedIndex then { s with currentIndex := index } else s

/-- The centralized reset/restore effect that runs on every change of
`currentIndex` (lines 306-341): it sets `userStoppedRef` *before* calling
`recognition.abort()`, clears both transcript refs, clears the transient
flags, and then restores the saved evaluation from `history` (or clears the
displayed evaluation when there is none). -/
def levelChangeEffect (s : PracticeState) : PracticeState :=
  let s1 : PracticeState :=
    { s with
        userStopped := true
        transcript := ""
        fullTranscript := ""
        isPlaying := false
        isRecording := false
        isEvaluating := false
        isAudioLoading := false }
  match s.history s.currentIndex with
  | some savedResult => { s1 with evaluation := some savedResult, showAnalysis := true }
  | none => { s1 with evaluation := none, showAnalysis := false }

/-- The synchronous prefix of `handleRecordingComplete` (lines 344-349): the
empty-transcript guard, the capture of `recordingIndex` from
`currentIndexRef.current`, and `setIsEvaluating(true)`.  Returns `none` when
the guard returns early. -/
def startEvaluation (transcript : String) (s : PracticeState) :
    Option (Nat × PracticeState) :=
  if jsTrim transcript = "" then none
  else some (s.currentIndex, { s with isEvaluating := true })

/-- The continuation of `handleRecordingComplete` after the awaited critique
call resolves (lines 350-371), applied to the state current at resolution
time; `recordingIndex` is the index captured at call time.  On a resolved
result the handler compares `currentIndexRef.current` against
`recordingIndex` and discards the result when they differ; the `finally`
block clears `isEvaluating` only when they agree. -/
def resolveEvaluation (recordingIndex : Nat) (res : Except String EvaluationResult)
    (s : PracticeState) : PracticeState :=
  match res with
  | .ok result =>
      if s.currentIndex ≠ recordingIndex then s
      else
        { s with
            evaluation := some result
            history := fun j => if j = recordingIndex then some result else s.history j
            showAnalysis := true
            isEvaluating := false }
  | .error _ =>
      if s.currentIndex = recordingIndex then { s with isEvaluating := false } else s

/-- `handleRecordingComplete` (lines 344-371) in the case where no other event
interleaves between the call and the resolution of the critique service.
`targetFor i` stands for `sentences[i].english`. -/
def handleRecordingComplete (apiKey : String) (targetFor : Nat → String)
    (transcript : String) (outcome : CritiqueOutcome) (s : PracticeState) :
    PracticeState :=
  match startEvaluation transcript s with
  | none => s
  | some (recordingIndex, s1) =>
      resolveEvaluation recordingIndex
        (evaluatePronunciation apiKey (targetFor recordingIndex) transcript outcome) s1

/-- `recognition.onresult` (lines 382-393): the live transcript ref becomes
the concatenation of the finalized and interim fragments. -/
def recognitionOnResult (finalText interimText : String) (s : PracticeState) :
    PracticeState :=
  { s with transcript := finalText ++ interimText }

/-- `recognition.onend` (lines 404-433).  The second component is the
transcript passed to `handleRecordingComplete`, when one is emitted.
`restartOk` tells whether the `recognition.start()` call of the auto-restart
path succeeds. -/
def recognitionOnEnd (restartOk : Bool) (s : PracticeState) :
    PracticeState × Option String :=
  if s.userStopped then
    let totalText := jsTrim (s.fullTranscript ++ " " ++ s.transcript)
    ({ s with isRecording := false, fullTranscript := "", transcript := "" },
     if 0 < totalText.length then some totalText else none)
  else
    let s1 : PracticeState :=
      if s.transcript ≠ "" then
        { s with fullTranscript := s.fullTranscript ++ " " ++ s.transcript, transcript := "" }
      else s
    if restartOk then (s1, none) else ({ s1 with isRecording := false }, none)

/-- `toggleRecording` (lines 536-573), assuming the recognition facility
exists.  When already recording it only sets the user-stopped flag and asks
the engine to stop (the engine's `onend` fires later); otherwise it cancels
any active playback, clears the displayed evaluation and the transcript refs,
and starts the engine (`startOk` tells whether `recognition.start()`
succeeds). -/
def toggleRecording (startOk : Bool) (s : PracticeState) : PracticeState :=
  if s.isRecording then
    { s with userStopped := true }
  else
    let s1 := if s.isPlaying then { s with isPlaying := false } else s
    let s2 : PracticeState :=
      { s1 with
          evaluation := none
          transcript := ""
          fullTranscript := ""
          userStopped := false }
    if startOk then { s2 with isRecording := true } else s2

/-- The outcome of the audio pipeline inside `playAudio`. -/
inductive AudioOutcome where
  | cachedOrFetched
  | fetchNull
  | fetchError

/-- `playAudio` (lines 461-534) run to completion with no interleaving: the
guard on line 462 returns immediately when playback, recording or loading is
already active; all other paths (cache hit, successful fetch, and the two
browser-TTS fallbacks) end with loading finished and playback started. -/
def playAudio (outcome : AudioOutcome) (s : PracticeState) : PracticeState :=
  if s.isPlaying || s.isRecording || s.isAudioLoading then s
  else
    match outcome with
    | .cachedOrFetched => { s with isAudioLoading := false, isPlaying := true }
    | .fetchNull => { s with isAudioLoading := false, isPlaying := true }
    | .fetchError => { s with isAudioLoading := false, isPlaying := true }

/-- `source.onended` / `utterance.onend`: playback finished. -/
def audioEnded (s : PracticeState) : PracticeState :=
  { s with isPlaying := false }

/-! ## Session operation sequences

The event-driven interleaving of the component is modelled as a list of
operations applied in order; each operation is one of the handlers above.
`step` additionally records the critique-service invocations the operation
issues, so that "no re-evaluation call is made" is expressible. -/

/-- One invocation of the external critique service. -/
structure CritiqueCall where
  target : String
  transcript : String
deriving DecidableEq

/-- A session operation: user actions, async completions and the level-change
effect. -/
inductive Op where
  | next
  | jump (index : Nat)
  | levelReset
  | startEval (transcript : String)
  | resolveEval (recordingIndex : Nat) (res : Except String EvaluationResult)
  | toggleRec (startOk : Bool)
  | recResult (finalText interimText : String)
  | recEnd (restartOk : Bool)
  | play (outcome : AudioOutcome)
  | audioDone

/-- Apply one operation; also return the critique calls it issues. -/
def step (targetFor : Nat → String) (count : Nat) (op : Op) (s : PracticeState) :
    PracticeState × List CritiqueCall :=
  match op with
  | .next => ((handleNext count s).1, [])
  | .jump i => (handleJumpToLevel i s, [])
  | .levelReset => (levelChangeEffect s, [])
  | .startEval t =>
      match startEvaluation t s with
      | none => (s, [])
      | some (recordingIndex, s1) => (s1, [⟨targetFor recordingIndex, t⟩])
  | .resolveEval ri res => (resolveEvaluation ri res s, [])
  | .toggleRec ok => (toggleRecording ok s, [])
  | .recResult f i => (recognitionOnResult f i s, [])
  | .recEnd ok => ((recognitionOnEnd ok s).1, [])
  | .play o => (playAudio o s, [])
  | .audioDone => (audioEnded s, [])

/-- Run a sequence of operations. -/
def runOps (targetFor : Nat → String) (count : Nat) (ops : List Op)
    (s : PracticeState) : PracticeState :=
  ops.foldl (fun st op => (step targetFor count op st).1) s

/-- The navigation invariant of the session state. -/
def NavInvariant (count : Nat) (s : PracticeState) : Prop :=
  s.currentIndex ≤ s.unlockedIndex ∧ s.unlockedIndex < count

/-! ## Sample states used in witnesses and counterexamples -/

/-- A sample evaluation result. -/
def sampleResult : EvaluationResult :=
  { score := 0, transcript := "hello", feedback := "很棒", errors := [] }

/-- A state in the middle of a recording. -/
def recordingState : PracticeState :=
  { initialState with isRecording := true, transcript := "hi" }

/-- A state on the last index of a two-level session. -/
def lastLevelState : PracticeState :=
  { initialState with currentIndex := 1, unlockedIndex := 1 }

/-- A previously stored evaluation for level 0, for exercising retries. -/
def priorResult : EvaluationResult :=
  { score := 0, transcript := "old answer", feedback := "earlier feedback", errors := [] }

/-- A state whose history already holds `priorResult` for level 0. -/
def storedState : PracticeState :=
  { initialState with
      history := fun j => if j = 0 then some priorResult else none
      evaluation := some priorResult
      showAnalysis := true }

/-- A state in which an audio fetch is still pending. -/
def loadingState : PracticeState :=
  { initialState with isAudioLoading := true }

/-- A state on level 2 with a stored evaluation for level 0. -/
def revisitState : PracticeState :=
  { initialState with
      currentIndex := 2
      unlockedIndex := 2
      history := fun j => if j = 0 then some sampleResult else none }

/-! ## Capture sessions with auto-restart

A capture session in which the engine self-stops after each of `initSegs`
(whereupon the `onend` handler appends the segment and restarts), delivers a
last segment, and is then stopped by the user. -/

/-- Appending one more segment to an accumulation buffer, as the `onend`
handler does: a single space then the segment. -/
def joinStep (acc t : String) : String :=
  acc ++ " " ++ t

/-- The space-separated concatenation of capture segments: the accumulation
buffer joins consecutive segments with a single space. -/
def joinSegments : List String → String
  | [] => ""
  | a :: rest => rest.foldl joinStep a

/-- One engine-initiated segment: `onresult` delivers the segment's finalized
text, then the engine self-stops and `onend` (with the user-stopped flag
clear) banks the text and restarts. -/
def selfStoppedSegment (s : PracticeState) (seg : String) : PracticeState :=
  (recognitionOnEnd true (recognitionOnResult seg "" s)).1

/-- A full capture session: the user starts recording, the engine self-stops
after each of `initSegs`, delivers `lastSeg`, the user stops, and the final
`onend` fires.  Returns the transcript emitted to evaluation, if any. -/
def captureSession (initSegs : List String) (lastSeg : String)
    (s : PracticeState) : Option String :=
  let s0 := toggleRecording true s
  let s1 := initSegs.foldl selfStoppedSegment s0
  let s2 := toggleRecording true (recognitionOnResult lastSeg "" s1)
  (recognitionOnEnd true s2).2

/-! ## Claim theorems -/

/-- C2: `handleJumpToLevel i` sets `currentIndex` to `i` (leaving every other
field unchanged) when `i ≤ unlockedIndex`, and is a no-op (the state,
including `currentIndex`, `unlockedIndex` and the history map, is returned
unchanged) when `i > unlockedIndex`. -/
theorem jumpTo_spec (i : Nat) (s : PracticeState) :
    (i ≤ s.unlockedIndex → handleJumpToLevel i s = { s with currentIndex := i }) ∧
    (s.unlockedIndex < i → handleJumpToLevel i s = s) := by
  constructor
  · intro h
    simp [handleJumpToLevel, h]
  · intro h
    simp [handleJumpToLevel, Nat.not_le.mpr h]

/-- Witness for `jumpTo_spec` at concrete inputs. -/
theorem jumpTo_spec_witness :
    handleJumpToLevel 0 initialState = { initialState with currentIndex := 0 } ∧
    handleJumpToLevel 1 initialState = initialState :=
  ⟨(jumpTo_spec 0 initialState).1 (by decide),
   (jumpTo_spec 1 initialState).2 (by decide)⟩

/-- C3: when `currentIndex + 1 < count`, `handleNext` raises `unlockedIndex`
to `max unlockedIndex (currentIndex + 1)`, increments `currentIndex`, and does
not signal completion; when `currentIndex` is the last index
(`currentIndex + 1 = count`), it signals session completion and returns the
state unchanged. -/
theorem advance_spec (count : Nat) (s : PracticeState) :
    (s.currentIndex + 1 < count →
        handleNext count s =
          ({ s with
              unlockedIndex := max s.unlockedIndex (s.currentIndex + 1)
              currentIndex := s.currentIndex + 1 }, false)) ∧
    (s.currentIndex + 1 = count → handleNext count s = (s, true)) := by
  constructor
  · intro h
    have hmax : (if s.currentIndex + 1 > s.unlockedIndex then s.currentIndex + 1
        else s.unlockedIndex) = max s.unlockedIndex (s.currentIndex + 1) := by
      split <;> omega
    simp only [handleNext, if_pos h, hmax]
  · intro h
    simp only [handleNext]
    rw [if_neg (by omega)]

/-- Witness for `advance_spec` at concrete inputs. -/
theorem advance_spec_witness :
    handleNext 2 initialState =
      ({ initialState with
          unlockedIndex := max initialState.unlockedIndex (initialState.currentIndex + 1)
          currentIndex := initialState.currentIndex + 1 }, false) ∧
    handleNext 2 lastLevelState = (lastLevelState, true) :=
  ⟨(advance_spec 2 initialState).1 (by decide),
   (advance_spec 2 lastLevelState).2 (by decide)⟩

/-- C1: when the critique result for a request captured at `recordingIndex`
resolves, it is discarded entirely (the state is unchanged: nothing is stored
in the history map, nothing is displayed) if the active index differs from
`recordingIndex`; if they agree it is stored in the history at
`recordingIndex` and displayed, and no other level's history entry changes. -/
theorem staleness_guard (recordingIndex : Nat) (result : EvaluationResult)
    (s : PracticeState) :
    (s.currentIndex ≠ recordingIndex →
        resolveEvaluation recordingIndex (.ok result) s = s) ∧
    (s.currentIndex = recordingIndex →
        (resolveEvaluation recordingIndex (.ok result) s).history recordingIndex
            = some result ∧
        (resolveEvaluation recordingIndex (.ok result) s).evaluation = some result ∧
        (resolveEvaluation recordingIndex (.ok result) s).showAnalysis = true ∧
        ∀ j, j ≠ recordingIndex →
          (resolveEvaluation recordingIndex (.ok result) s).history j = s.history j) := by
  constructor
  · intro h
    simp [resolveEvaluation, h]
  · intro h
    refine ⟨?_, ?_, ?_, ?_⟩ <;> simp [resolveEvaluation, h]
    intro j hj
    simp [hj]

/-- Witness for `staleness_guard`: a stale resolution leaves the state
unchanged; a fresh one stores and displays the result. -/
theorem staleness_guard_witness :
    resolveEvaluation 0 (.ok sampleResult) { initialState with currentIndex := 1 } =
      { initialState with currentIndex := 1 } ∧
    (resolveEvaluation 0 (.ok sampleResult) initialState).history 0 = some sampleResult ∧
    (resolveEvaluation 0 (.ok sampleResult) initialState).evaluation = some sampleResult :=
  ⟨(staleness_guard 0 sampleResult { initialState with currentIndex := 1 }).1 (by decide),
   ((staleness_guard 0 sampleResult initialState).2 rfl).1,
   ((staleness_guard 0 sampleResult initialState).2 rfl).2.1⟩

/-- C5: the level-change effect, run while a capture is in progress, sets the
user-stopped flag (before the abort, so the engine's `onend` sees it set),
clears both transcript buffers and the recording flag; the subsequent engine
`onend` therefore emits no capture-complete transcript and performs no
restart, whatever the restart outcome would have been. -/
theorem level_change_capture_abort (restartOk : Bool) (s : PracticeState)
    (hrec : s.isRecording = true) :
    (levelChangeEffect s).userStopped = true ∧
    (levelChangeEffect s).transcript = "" ∧
    (levelChangeEffect s).fullTranscript = "" ∧
    (levelChangeEffect s).isRecording = false ∧
    (recognitionOnEnd restartOk (levelChangeEffect s)).2 = none ∧
    (recognitionOnEnd restartOk (levelChangeEffect s)).1.isRecording = false := by
  have hempty : (jsTrim " ").length = 0 := by decide
  cases h : s.history s.currentIndex <;>
    simp [levelChangeEffect, h, recognitionOnEnd, hempty]

/-- C7 counterexample: a network failure of the critique call does *not*
leave the history entry untouched.  `evaluatePronunciation` swallows the
error and returns a degraded result, which `handleRecordingComplete` stores,
overwriting the previously saved evaluation for the level. -/
theorem critique_failure_counterexample :
    storedState.history 0 = some priorResult ∧
    (handleRecordingComplete "key" (fun _ => "Old answer.") "hello there"
        .netError storedState).history 0 ≠ some priorResult ∧
    (handleRecordingComplete "key" (fun _ => "Old answer.") "hello there"
        .netError storedState).history 0 = some (degradedResult "hello there") := by
  refine ⟨by decide, by decide, by decide⟩

/-- C7 amended: when the critique call fails with a network or parse error
the session does not crash — `evaluatePronunciation` catches the failure and
returns a degraded `EvaluationResult` (feedback `"网络错误"`, no error
annotations) — but this degraded result *is* stored into the history entry
for the active level (overwriting any prior entry) and displayed; the history
is left untouched only when `evaluatePronunciation` itself throws (missing
API key). -/
theorem critique_failure_stores_degraded (apiKey : String) (targetFor : Nat → String)
    (transcript : String) (s : PracticeState)
    (ht : jsTrim transcript ≠ "") (hkey : apiKey ≠ "") :
    evaluatePronunciation apiKey (targetFor s.currentIndex) transcript .netError =
      .ok (degradedResult transcript) ∧
    (handleRecordingComplete apiKey targetFor transcript .netError s).history
        s.currentIndex = some (degradedResult transcript) ∧
    (handleRecordingComplete apiKey targetFor transcript .netError s).evaluation =
      some (degradedResult transcript) ∧
    (handleRecordingComplete apiKey targetFor transcript .parseError s).history
        s.currentIndex = some (degradedResult transcript) := by
  refine ⟨?_, ?_, ?_, ?_⟩
  · simp [evaluatePronunciation, hkey, degradedResult]
  · simp [handleRecordingComplete, startEvaluation, ht, evaluatePronunciation, hkey,
      resolveEvaluation, degradedResult]
  · simp [handleRecordingComplete, startEvaluation, ht, evaluatePronunciation, hkey,
      resolveEvaluation, degradedResult]
  · simp [handleRecordingComplete, startEvaluation, ht, evaluatePronunciation, hkey,
      resolveEvaluation, degradedResult]

/-- Witness for `critique_failure_stores_degraded` at concrete inputs. -/
theorem critique_failure_stores_degraded_witness :
    (handleRecordingComplete "key" (fun _ => "t") "hello" .netError initialState).history
        0 = some (degradedResult "hello") ∧
    (handleRecordingComplete "key" (fun _ => "t") "hello" .netError
        initialState).evaluation = some (degradedResult "hello") :=
  have h := critique_failure_stores_degraded "key" (fun _ => "t") "hello" initialState
    (by decide) (by decide)
  ⟨h.2.1, h.2.2.1⟩

/-- C8 counterexample: starting a recording while audio is loading is *not*
refused — `toggleRecording` contains no check of the loading flag and starts
the engine. -/
theorem recording_starts_while_loading :
    loadingState.isAudioLoading = true ∧
    loadingState.isRecording = false ∧
    (toggleRecording true loadingState).isRecording = true := by
  refine ⟨rfl, rfl, by decide⟩

/-- C8 amended: `playAudio` is a no-op whenever a recording is in progress,
but starting a recording while audio is playing or loading is not refused:
`toggleRecording` starts the recording, first clearing the playing flag (an
active playback is cancelled; a pending load is not checked at all). -/
theorem playback_capture_exclusion (outcome : AudioOutcome) (startOk : Bool)
    (s : PracticeState) :
    (s.isRecording = true → playAudio outcome s = s) ∧
    (s.isRecording = false →
        (toggleRecording startOk s).isRecording = startOk ∧
        (toggleRecording startOk s).isPlaying = false) := by
  constructor
  · intro h
    simp [playAudio, h]
  · intro h
    cases startOk <;> cases hp : s.isPlaying <;>
      simp [toggleRecording, h, hp]

/-- Witness for `playback_capture_exclusion`: `playAudio` refuses during a
recording; `toggleRecording` starts while audio is playing. -/
theorem playback_capture_exclusion_witness :
    playAudio .cachedOrFetched recordingState = recordingState ∧
    (toggleRecording true { initialState with isPlaying := true }).isRecording = true ∧
    (toggleRecording true { initialState with isPlaying := true }).isPlaying = false :=
  ⟨(playback_capture_exclusion .cachedOrFetched true recordingState).1 rfl,
   ((playback_capture_exclusion .cachedOrFetched true
      { initialState with isPlaying := true }).2 rfl).1,
   ((playback_capture_exclusion .cachedOrFetched true
      { initialState with isPlaying := true }).2 rfl).2⟩

/-- C9: jumping to an unlocked level and running the level-change effect
issues no critique call; the history map is unchanged; when the history holds
an entry for the target level exactly that stored result is redisplayed with
analysis visible, and when it holds none the displayed evaluation is cleared
and analysis hidden. -/
theorem history_roundtrip (targetFor : Nat → String) (count : Nat) (i : Nat)
    (s : PracticeState) (hi : i ≤ s.unlockedIndex) :
    (step targetFor count (.jump i) s).2 = [] ∧
    (step targetFor count .levelReset (handleJumpToLevel i s)).2 = [] ∧
    (levelChangeEffect (handleJumpToLevel i s)).history = s.history ∧
    (levelChangeEffect (handleJumpToLevel i s)).currentIndex = i ∧
    (∀ r, s.history i = some r →
        (levelChangeEffect (handleJumpToLevel i s)).evaluation = some r ∧
        (levelChangeEffect (handleJumpToLevel i s)).showAnalysis = true) ∧
    (s.history i = none →
        (levelChangeEffect (handleJumpToLevel i s)).evaluation = none ∧
        (levelChangeEffect (handleJumpToLevel i s)).showAnalysis = false) := by
  have hjump : handleJumpToLevel i s = { s with currentIndex := i } := by
    simp [handleJumpToLevel, hi]
  refine ⟨rfl, rfl, ?_, ?_, ?_, ?_⟩
  · rw [hjump]
    cases h : s.history i <;> simp [levelChangeEffect, h]
  · rw [hjump]
    cases h : s.history i <;> simp [levelChangeEffect, h]
  · intro r hr
    rw [hjump]
    simp [levelChangeEffect, hr]
  · intro hr
    rw [hjump]
    simp [levelChangeEffect, hr]

/-- Witness for `history_roundtrip`: revisiting level 0 redisplays the stored
result without any critique call. -/
theorem history_roundtrip_witness :
    (step (fun _ => "") 5 (.jump 0) revisitState).2 = [] ∧
    (levelChangeEffect (handleJumpToLevel 0 revisitState)).evaluation =
      some sampleResult ∧
    (levelChangeEffect (handleJumpToLevel 0 revisitState)).showAnalysis = true :=
  have h := history_roundtrip (fun _ => "") 5 0 revisitState (by decide)
  ⟨h.1, (h.2.2.2.2.1 sampleResult (by decide)).1, (h.2.2.2.2.1 sampleResult (by decide)).2⟩

/-! ### Helper lemmas: effect of each operation on the navigation fields -/

lemma handleNext_unlocked_le (count : Nat) (s : PracticeState) :
    s.unlockedIndex ≤ ((handleNext count s).1).unlockedIndex := by
  simp only [handleNext]
  split
  · dsimp only
    split <;> omega
  · exact Nat.le_refl _

lemma handleJumpToLevel_unlocked (i : Nat) (s : PracticeState) :
    (handleJumpToLevel i s).unlockedIndex = s.unlockedIndex := by
  simp only [handleJumpToLevel]
  split <;> rfl

lemma levelChangeEffect_nav (s : PracticeState) :
    (levelChangeEffect s).unlockedIndex = s.unlockedIndex ∧
    (levelChangeEffect s).currentIndex = s.currentIndex := by
  simp only [levelChangeEffect]
  cases s.history s.currentIndex <;> exact ⟨rfl, rfl⟩

lemma startEvaluation_nav (t : String) (s : PracticeState) (p : Nat × PracticeState)
    (h : startEvaluation t s = some p) :
    p.2.unlockedIndex = s.unlockedIndex ∧ p.2.currentIndex = s.currentIndex := by
  simp only [startEvaluation] at h
  split at h
  · exact absurd h (by simp)
  · cases h
    exact ⟨rfl, rfl⟩

lemma resolveEvaluation_nav (ri : Nat) (res : Except String EvaluationResult)
    (s : PracticeState) :
    (resolveEvaluation ri res s).unlockedIndex = s.unlockedIndex ∧
    (resolveEvaluation ri res s).currentIndex = s.currentIndex := by
  cases res <;> simp only [resolveEvaluation] <;> split <;> exact ⟨rfl, rfl⟩

lemma toggleRecording_nav (ok : Bool) (s : PracticeState) :
    (toggleRecording ok s).unlockedIndex = s.unlockedIndex ∧
    (toggleRecording ok s).currentIndex = s.currentIndex := by
  simp only [toggleRecording]
  split
  · exact ⟨rfl, rfl⟩
  · cases ok <;> cases hp : s.isPlaying <;> simp [hp]

lemma recognitionOnEnd_nav (ok : Bool) (s : PracticeState) :
    ((recognitionOnEnd ok s).1).unlockedIndex = s.unlockedIndex ∧
    ((recognitionOnEnd ok s).1).currentIndex = s.currentIndex := by
  simp only [recognitionOnEnd]
  split
  · exact ⟨rfl, rfl⟩
  · split <;> split <;> exact ⟨rfl, rfl⟩

lemma playAudio_nav (o : AudioOutcome) (s : PracticeState) :
    (playAudio o s).unlockedIndex = s.unlockedIndex ∧
    (playAudio o s).currentIndex = s.currentIndex := by
  simp only [playAudio]
  split
  · exact ⟨rfl, rfl⟩
  · cases o <;> exact ⟨rfl, rfl⟩

/-- One operation never lowers `unlockedIndex`. -/
lemma step_unlocked_mono (targetFor : Nat → String) (count : Nat) (op : Op)
    (s : PracticeState) :
    s.unlockedIndex ≤ ((step targetFor count op s).1).unlockedIndex := by
  cases op with
  | next => exact handleNext_unlocked_le count s
  | jump i => exact Nat.le_of_eq (handleJumpToLevel_unlocked i s).symm
  | levelReset => exact Nat.le_of_eq (levelChangeEffect_nav s).1.symm
  | startEval t =>
      simp only [step]
      cases h : startEvaluation t s with
      | none => exact Nat.le_refl _
      | some p => exact Nat.le_of_eq (startEvaluation_nav t s p h).1.symm
  | resolveEval ri res => exact Nat.le_of_eq (resolveEvaluation_nav ri res s).1.symm
  | toggleRec ok => exact Nat.le_of_eq (toggleRecording_nav ok s).1.symm
  | recResult f i => exact Nat.le_refl _
  | recEnd ok => exact Nat.le_of_eq (recognitionOnEnd_nav ok s).1.symm
  | play o => exact Nat.le_of_eq (playAudio_nav o s).1.symm
  | audioDone => exact Nat.le_refl _

lemma runOps_unlocked_mono (targetFor : Nat → String) (count : Nat) (ops : List Op) :
    ∀ s : PracticeState, s.unlockedIndex ≤ (runOps targetFor count ops s).unlockedIndex := by
  induction ops with
  | nil => intro s; exact Nat.le_refl _
  | cons op rest ih =>
      intro s
      exact Nat.le_trans (step_unlocked_mono targetFor count op s)
        (ih ((step targetFor count op s).1))

/-- C4: `unlockedIndex` is monotonically non-decreasing — each single session
operation (advance, jump, recording, playback, evaluation, level reset) and
hence every sequence of them leaves `unlockedIndex` greater than or equal to
its previous value. -/
theorem unlocked_monotone (targetFor : Nat → String) (count : Nat) :
    (∀ (op : Op) (s : PracticeState),
        s.unlockedIndex ≤ ((step targetFor count op s).1).unlockedIndex) ∧
    (∀ (ops : List Op) (s : PracticeState),
        s.unlockedIndex ≤ (runOps targetFor count ops s).unlockedIndex) :=
  ⟨step_unlocked_mono targetFor count,
   fun ops s => runOps_unlocked_mono targetFor count ops s⟩

/-- One operation preserves the navigation invariant. -/
lemma step_nav_invariant (targetFor : Nat → String) (count : Nat) (op : Op)
    (s : PracticeState) (h : NavInvariant count s) :
    NavInvariant count ((step targetFor count op s).1) := by
  obtain ⟨hcu, huc⟩ := h
  cases op with
  | next =>
      simp only [step, handleNext]
      split
      · refine ⟨?_, ?_⟩ <;> dsimp only <;> split <;> omega
      · exact ⟨hcu, huc⟩
  | jump i =>
      simp only [step, handleJumpToLevel]
      split
      · next hij => exact ⟨hij, huc⟩
      · exact ⟨hcu, huc⟩
  | levelReset =>
      obtain ⟨h1, h2⟩ := levelChangeEffect_nav s
      exact ⟨by rw [step, h1, h2]; exact hcu, by rw [step, h1]; exact huc⟩
  | startEval t =>
      simp only [step]
      cases hse : startEvaluation t s with
      | none => exact ⟨hcu, huc⟩
      | some p =>
          obtain ⟨h1, h2⟩ := startEvaluation_nav t s p hse
          exact ⟨by rw [h1, h2]; exact hcu, by rw [h1]; exact huc⟩
  | resolveEval ri res =>
      obtain ⟨h1, h2⟩ := resolveEvaluation_nav ri res s
      exact ⟨by rw [step, h1, h2]; exact hcu, by rw [step, h1]; exact huc⟩
  | toggleRec ok =>
      obtain ⟨h1, h2⟩ := toggleRecording_nav ok s
      exact ⟨by rw [step, h1, h2]; exact hcu, by rw [step, h1]; exact huc⟩
  | recResult f i => exact ⟨hcu, huc⟩
  | recEnd ok =>
      obtain ⟨h1, h2⟩ := recognitionOnEnd_nav ok s
      exact ⟨by rw [step, h1, h2]; exact hcu, by rw [step, h1]; exact huc⟩
  | play o =>
      obtain ⟨h1, h2⟩ := playAudio_nav o s
      exact ⟨by rw [step, h1, h2]; exact hcu, by rw [step, h1]; exact huc⟩
  | audioDone => exact ⟨hcu, huc⟩

lemma runOps_nav_invariant (targetFor : Nat → String) (count : Nat) (ops : List Op) :
    ∀ s : PracticeState, NavInvariant count s →
      NavInvariant count (runOps targetFor count ops s) := by
  induction ops with
  | nil => intro s h; exact h
  | cons op rest ih =>
      intro s h
      exact ih ((step targetFor count op s).1) (step_nav_invariant targetFor count op s h)

/-- C10: starting from the initial state (`currentIndex = unlockedIndex = 0`)
every interleaving of session operations preserves
`currentIndex ≤ unlockedIndex` and `unlockedIndex < count`. -/
theorem nav_invariant_holds (targetFor : Nat → String) (count : Nat)
    (hcount : 0 < count) (ops : List Op) :
    NavInvariant count (runOps targetFor count ops initialState) :=
  runOps_nav_invariant targetFor count ops initialState ⟨Nat.le_refl 0, hcount⟩

/-- Witness for `nav_invariant_holds` at a concrete operation sequence. -/
theorem nav_invariant_holds_witness :
    NavInvariant 3 (runOps (fun _ => "") 3
      [Op.next, Op.levelReset, Op.jump 0, Op.levelReset, Op.next] initialState) :=
  nav_invariant_holds (fun _ => "") 3 (by decide)
    [Op.next, Op.levelReset, Op.jump 0, Op.levelReset, Op.next]

/-- Witness for `level_change_capture_abort` at a concrete recording state. -/
theorem level_change_capture_abort_witness :
    (levelChangeEffect recordingState).userStopped = true ∧
    (levelChangeEffect recordingState).transcript = "" ∧
    (levelChangeEffect recordingState).fullTranscript = "" ∧
    (levelChangeEffect recordingState).isRecording = false ∧
    (recognitionOnEnd true (levelChangeEffect recordingState)).2 = none ∧
    (recognitionOnEnd true (levelChangeEffect recordingState)).1.isRecording = false :=
  level_change_capture_abort true recordingState (by decide)

/-! ### Capture-session transcript lemmas (C6) -/

lemma length_pos_of_ne_empty (x : String) (h : x ≠ "") : 0 < x.length := by
  cases x with
  | mk data =>
      cases data with
      | nil => exact absurd rfl h
      | cons a l => exact Nat.succ_pos l.length

lemma joinStep_append (x y a : String) : joinStep (x ++ y) a = x ++ joinStep y a := by
  simp [joinStep, String.append_assoc]

lemma joinSegments_shift (rest : List String) (x y : String) :
    rest.foldl joinStep (x ++ y) = x ++ rest.foldl joinStep y := by
  induction rest generalizing y with
  | nil => rfl
  | cons a t ih =>
      simp only [List.foldl_cons, joinStep_append]
      exact ih (joinStep y a)

lemma foldl_join_eq (segs : List String) (h : segs ≠ []) :
    segs.foldl joinStep "" = " " ++ joinSegments segs := by
  cases segs with
  | nil => exact absurd rfl h
  | cons a rest =>
      simp only [List.foldl_cons, joinSegments]
      have h1 : joinStep "" a = " " ++ a := by
        simp [joinStep, String.empty_append]
      rw [h1]
      exact joinSegments_shift rest " " a

lemma jsTrim_space_append (x : String) : jsTrim (" " ++ x) = jsTrim x := by
  have hdata : (" " ++ x).data = ' ' :: x.data := by
    rw [String.data_append]
    rfl
  have hw : isJsWhitespace ' ' = true := rfl
  simp [jsTrim, trimChars, hdata, List.dropWhile_cons, hw]

/-- Effect of a run of engine self-stops on the accumulation buffer: each
nonempty segment is appended after a single space, and the live transcript is
left empty. -/
lemma foldl_selfStoppedSegment (initSegs : List String) :
    ∀ s : PracticeState, s.transcript = "" → s.userStopped = false →
      (∀ t ∈ initSegs, t ≠ "") →
      initSegs.foldl selfStoppedSegment s =
        { s with
            fullTranscript := initSegs.foldl joinStep s.fullTranscript } := by
  induction initSegs with
  | nil => intro s _ _ _; rfl
  | cons a rest ih =>
      intro s hts hus hne
      have ha : a ≠ "" := hne a (List.mem_cons_self a rest)
      have hstep : selfStoppedSegment s a =
          { s with transcript := "",
                   fullTranscript := s.fullTranscript ++ " " ++ a } := by
        simp [selfStoppedSegment, recognitionOnResult, recognitionOnEnd, hus, ha,
          String.append_empty]
      have hrest := ih
        { s with transcript := "", fullTranscript := s.fullTranscript ++ " " ++ a }
        rfl hus (fun t ht => hne t (List.mem_cons_of_mem a ht))
      rw [List.foldl_cons, hstep, hrest, List.foldl_cons, hts]
      rfl

/-- A user-initiated stop while recording: `toggleRecording` sets the
user-stopped flag, and the engine's final `onend` emits the banked buffer
joined with the last live transcript, trimmed, when nonempty. -/
lemma userStop_emission (x : PracticeState) (hx : x.isRecording = true)
    (lastSeg : String) (r : Bool) :
    (recognitionOnEnd r (toggleRecording true (recognitionOnResult lastSeg "" x))).2 =
      (if 0 < (jsTrim (x.fullTranscript ++ " " ++ (lastSeg ++ ""))).length
       then some (jsTrim (x.fullTranscript ++ " " ++ (lastSeg ++ ""))) else none) := by
  simp [recognitionOnResult, toggleRecording, recognitionOnEnd, hx]

/-- C6: in a capture session where the engine self-stops after each segment of
`initSegs` (each nonempty, so it is banked into the accumulation buffer) and
the user stops after a final segment, the transcript handed to evaluation is
the space-separated concatenation of all the segments' finalized text, trimmed
of surrounding whitespace. -/
theorem capture_transcript_concat (initSegs : List String) (lastSeg : String)
    (s : PracticeState) (hrec : s.isRecording = false)
    (hne : ∀ t ∈ initSegs, t ≠ "")
    (hfull : jsTrim (joinSegments (initSegs ++ [lastSeg])) ≠ "") :
    captureSession initSegs lastSeg s =
      some (jsTrim (joinSegments (initSegs ++ [lastSeg]))) := by
  have h0t : (toggleRecording true s).transcript = "" := by
    simp [toggleRecording, hrec]
  have h0u : (toggleRecording true s).userStopped = false := by
    simp [toggleRecording, hrec]
  have h0f : (toggleRecording true s).fullTranscript = "" := by
    simp [toggleRecording, hrec]
  have h0r : (toggleRecording true s).isRecording = true := by
    simp [toggleRecording, hrec]
  have hfold : initSegs.foldl selfStoppedSegment (toggleRecording true s) =
      { toggleRecording true s with
          fullTranscript := initSegs.foldl joinStep "" } := by
    rw [foldl_selfStoppedSegment initSegs (toggleRecording true s) h0t h0u hne, h0f]
  have hkey : (initSegs.foldl joinStep "") ++ " " ++ (lastSeg ++ "") =
      " " ++ joinSegments (initSegs ++ [lastSeg]) := by
    rw [String.append_empty]
    have happ : (initSegs ++ [lastSeg]).foldl joinStep "" =
        (initSegs.foldl joinStep "") ++ " " ++ lastSeg := by
      rw [List.foldl_append]
      rfl
    rw [← happ, foldl_join_eq _ (by simp)]
  simp only [captureSession]
  rw [hfold]
  rw [userStop_emission
    { toggleRecording true s with fullTranscript := initSegs.foldl joinStep "" }
    h0r lastSeg true]
  dsimp only
  rw [hkey, jsTrim_space_append, if_pos (length_pos_of_ne_empty _ hfull)]

/-- Witness for `capture_transcript_concat`: two silence-induced restarts
before the user stop; the emitted transcript is the trimmed concatenation of
all three segments. -/
theorem capture_transcript_concat_witness :
    captureSession ["hello there", "how are"] "you today" initialState =
      some "hello there how are you today" := by
  have h := capture_transcript_concat ["hello there", "how are"] "you today"
    initialState (by decide) (by decide) (by decide)
  rw [h]
  rfl

end LinguistAI
